import Mathlib

/-!
Shallow embedding of the FabricExample chaincode
(src/chaincode-javascript/lib/assetTransfer.js).

The chaincode stores JSON-encoded asset records in a key-value world
state.  We embed:

  - a JSON value type and the serializer corresponding to the
    whitespace-free JSON.stringify used by the chaincode;
  - the recursive key sort of the sort-keys-recursive package and the
    deterministic stringify of json-stringify-deterministic (both sort
    object keys in ascending lexicographic order; arrays never occur in
    the records this program builds, so array handling follows the
    recursive descent without reordering elements);
  - a JSON parser modelling JSON.parse (numeric literals are modelled as
    integers: the only numbers appearing in this program are integers);
  - the world state as an association list from keys to stored strings,
    with the stub operations getState, putState, deleteState and the
    lexicographically ordered open range scan getStateByRange;
  - the contract methods InitLedger, CreateAsset, ReadAsset, UpdateAsset,
    DeleteAsset, AssetExists, TransferAsset and GetAllAssets, with
    JavaScript exceptions embedded as the error side of Except.
-/

/-- A JSON value.  Objects keep their field list in insertion order,
exactly as JavaScript objects keep property insertion order. -/
inductive Json where
  | null
  | bool (b : Bool)
  | num (n : Int)
  | str (s : String)
  | arr (elems : List Json)
  | obj (fields : List (String × Json))

/-- One hexadecimal digit, lower case. -/
def hexDigit (n : Nat) : Char :=
  if n < 10 then Char.ofNat (48 + n) else Char.ofNat (87 + n)

/-- Four hexadecimal digits, as in the JSON escape form with a u prefix. -/
def hexQuad (n : Nat) : String :=
  String.mk [hexDigit (n / 4096 % 16), hexDigit (n / 256 % 16),
             hexDigit (n / 16 % 16), hexDigit (n % 16)]

/-- Escaping of one character inside a JSON string literal, as performed
by JSON.stringify: quote, backslash, the named control escapes, and a
u escape for the remaining control characters. -/
def escapeChar (c : Char) : String :=
  if c = '"' then "\\\""
  else if c = '\\' then "\\\\"
  else if c = '\n' then "\\n"
  else if c = '\r' then "\\r"
  else if c = '\t' then "\\t"
  else if c.toNat = 8 then "\\b"
  else if c.toNat = 12 then "\\f"
  else if c.toNat < 32 then "\\u" ++ hexQuad c.toNat
  else String.mk [c]

/-- A JSON string literal: quotes around the escaped characters. -/
def quoteStr (s : String) : String :=
  "\"" ++ String.join (s.toList.map escapeChar) ++ "\""

mutual
/-- Whitespace-free JSON serialization preserving object field order:
the behaviour of JSON.stringify with no spacing argument. -/
def serialize : Json → String
  | .null => "null"
  | .bool b => if b then "true" else "false"
  | .num n => toString n
  | .str s => quoteStr s
  | .arr es => "[" ++ serializeElems es ++ "]"
  | .obj fs => "\x7b" ++ serializeFields fs ++ "\x7d"

/-- Comma-separated serialization of array elements. -/
def serializeElems : List Json → String
  | [] => ""
  | [e] => serialize e
  | e :: e2 :: es => serialize e ++ "," ++ serializeElems (e2 :: es)

/-- Comma-separated serialization of object members, each as key colon value. -/
def serializeFields : List (String × Json) → String
  | [] => ""
  | [(k, v)] => quoteStr k ++ ":" ++ serialize v
  | (k, v) :: f2 :: fs => quoteStr k ++ ":" ++ serialize v ++ "," ++ serializeFields (f2 :: fs)
end

/-- Lexicographic comparison of character lists by code point, the
order in which the default JavaScript array sort ranks strings. -/
def charListLe : List Char → List Char → Bool
  | [], _ => true
  | _ :: _, [] => false
  | a :: as, b :: bs =>
    if a.toNat < b.toNat then true
    else if b.toNat < a.toNat then false
    else charListLe as bs

/-- Lexicographic string comparison by code point. -/
def keyLe (a b : String) : Bool :=
  charListLe a.toList b.toList

/-- Insertion of a key-value pair into a list sorted by key (ascending
lexicographic order on the string keys, as the default JavaScript array
sort used by the key-sorting packages). -/
def insOrd {β : Type} (x : String × β) : List (String × β) → List (String × β)
  | [] => [x]
  | y :: l => if keyLe x.1 y.1 then x :: y :: l else y :: insOrd x l

/-- Insertion sort of an association list by key, ascending. -/
def sortOrd {β : Type} : List (String × β) → List (String × β)
  | [] => []
  | x :: l => insOrd x (sortOrd l)

mutual
/-- Recursive key sort of a JSON value: object keys are sorted in
ascending lexicographic order at every nesting level, modelling the
sort-keys-recursive package on the object-valued records this program
builds. -/
def sortKeysRecursive : Json → Json
  | .null => .null
  | .bool b => .bool b
  | .num n => .num n
  | .str s => .str s
  | .arr es => .arr (sortKeysList es)
  | .obj fs => .obj (sortOrd (sortKeysFields fs))

/-- Recursive key sort applied to every element of an array. -/
def sortKeysList : List Json → List Json
  | [] => []
  | e :: es => sortKeysRecursive e :: sortKeysList es

/-- Recursive key sort applied to every value of an object field list. -/
def sortKeysFields : List (String × Json) → List (String × Json)
  | [] => []
  | (k, v) :: fs => (k, sortKeysRecursive v) :: sortKeysFields fs
end

/-- Deterministic stringify, modelling json-stringify-deterministic:
serialization with object keys sorted recursively. -/
def stringify (j : Json) : String :=
  serialize (sortKeysRecursive j)

/-- The canonical encoding the chaincode persists:
stringify applied after sortKeysRecursive, exactly the composition
written at every putState call site in assetTransfer.js. -/
def encode (a : Json) : String :=
  stringify (sortKeysRecursive a)

/-- The opening brace character (written by code point to keep JSON
punctuation out of the string literals below). -/
def braceL : Char := Char.ofNat 123

/-- The closing brace character. -/
def braceR : Char := Char.ofNat 125

/-- JSON whitespace recognition. -/
def isWsChar (c : Char) : Bool :=
  c = ' ' || c = '\n' || c = '\t' || c = '\r'

/-- Dropping of leading JSON whitespace. -/
def skipWs : List Char → List Char
  | [] => []
  | c :: cs => if isWsChar c then skipWs cs else c :: cs

/-- Decimal digit recognition. -/
def isDigitChar (c : Char) : Bool :=
  48 ≤ c.toNat && c.toNat ≤ 57

/-- Splitting of a character stream into its leading run of decimal
digits and the remainder. -/
def takeDigits : List Char → List Char × List Char
  | [] => ([], [])
  | c :: cs =>
    if isDigitChar c then
      let p := takeDigits cs
      (c :: p.1, p.2)
    else ([], c :: cs)

/-- Numeric value of a run of decimal digits. -/
def digitsToNat (ds : List Char) : Nat :=
  ds.foldl (fun a c => a * 10 + (c.toNat - 48)) 0

/-- Numeric value of one hexadecimal digit, if any. -/
def hexCharVal (c : Char) : Option Nat :=
  if 48 ≤ c.toNat && c.toNat ≤ 57 then some (c.toNat - 48)
  else if 97 ≤ c.toNat && c.toNat ≤ 102 then some (c.toNat - 87)
  else if 65 ≤ c.toNat && c.toNat ≤ 70 then some (c.toNat - 55)
  else none

/-- Numeric value of a four-digit hexadecimal escape. -/
def hexQuadVal (a b c d : Char) : Option Nat :=
  match hexCharVal a, hexCharVal b, hexCharVal c, hexCharVal d with
  | some va, some vb, some vc, some vd => some (((va * 16 + vb) * 16 + vc) * 16 + vd)
  | _, _, _, _ => none

/-- Resolution of a single-character JSON escape. -/
def unescapeChar (c : Char) : Option Char :=
  if c = '"' then some '"'
  else if c = '\\' then some '\\'
  else if c = '/' then some '/'
  else if c = 'n' then some '\n'
  else if c = 'r' then some '\r'
  else if c = 't' then some '\t'
  else if c = 'b' then some (Char.ofNat 8)
  else if c = 'f' then some (Char.ofNat 12)
  else none

/-- Parsing of the body of a JSON string literal after its opening
quote, accumulating decoded characters in reverse. -/
def parseStrBody (acc : List Char) : List Char → Option (String × List Char)
  | [] => none
  | '"' :: rest => some (String.mk acc.reverse, rest)
  | '\\' :: 'u' :: a :: b :: c :: d :: rest =>
    match hexQuadVal a b c d with
    | some n => parseStrBody (Char.ofNat n :: acc) rest
    | none => none
  | '\\' :: e :: rest =>
    match unescapeChar e with
    | some ch => parseStrBody (ch :: acc) rest
    | none => none
  | '\\' :: [] => none
  | c :: rest => parseStrBody (c :: acc) rest

/-- Parsing of an integer numeric literal (an optional minus sign and a
digit run).  The records of this program contain integers only, so the
model restricts JSON numerals to integers. -/
def parseNumFrom (cs : List Char) : Option (Int × List Char) :=
  match cs with
  | '-' :: r =>
    let p := takeDigits r
    if p.1.isEmpty then none else some (-(digitsToNat p.1 : Int), p.2)
  | _ =>
    let p := takeDigits cs
    if p.1.isEmpty then none else some ((digitsToNat p.1 : Int), p.2)

mutual
/-- Parsing of one JSON value, recursing on a fuel bound. -/
def parseValue : Nat → List Char → Option (Json × List Char)
  | 0, _ => none
  | fuel + 1, cs =>
    match skipWs cs with
    | 'n' :: 'u' :: 'l' :: 'l' :: r => some (.null, r)
    | 't' :: 'r' :: 'u' :: 'e' :: r => some (.bool true, r)
    | 'f' :: 'a' :: 'l' :: 's' :: 'e' :: r => some (.bool false, r)
    | '"' :: r =>
      match parseStrBody [] r with
      | some (s, r2) => some (.str s, r2)
      | none => none
    | '[' :: r =>
      match skipWs r with
      | ']' :: r2 => some (.arr [], r2)
      | r2 =>
        match parseElems fuel r2 with
        | some (es, r3) => some (.arr es, r3)
        | none => none
    | c :: r =>
      if c = braceL then
        match skipWs r with
        | c2 :: r2 =>
          if c2 = braceR then some (.obj [], r2)
          else
            match parseMembers fuel (c2 :: r2) with
            | some (fs, r3) => some (.obj fs, r3)
            | none => none
        | [] => none
      else
        match parseNumFrom (c :: r) with
        | some (n, r2) => some (.num n, r2)
        | none => none
    | [] => none

/-- Parsing of the elements of a non-empty JSON array up to the closing
bracket. -/
def parseElems : Nat → List Char → Option (List Json × List Char)
  | 0, _ => none
  | fuel + 1, cs =>
    match parseValue fuel cs with
    | some (j, r) =>
      match skipWs r with
      | ',' :: r2 =>
        match parseElems fuel r2 with
        | some (es, r3) => some (j :: es, r3)
        | none => none
      | ']' :: r2 => some ([j], r2)
      | _ => none
    | none => none

/-- Parsing of the members of a non-empty JSON object up to the closing
brace. -/
def parseMembers : Nat → List Char → Option (List (String × Json) × List Char)
  | 0, _ => none
  | fuel + 1, cs =>
    match skipWs cs with
    | '"' :: r =>
      match parseStrBody [] r with
      | some (k, r2) =>
        match skipWs r2 with
        | ':' :: r3 =>
          match parseValue fuel r3 with
          | some (v, r4) =>
            match skipWs r4 with
            | ',' :: r5 =>
              match parseMembers fuel r5 with
              | some (fs, r6) => some ((k, v) :: fs, r6)
              | none => none
            | c5 :: r5 => if c5 = braceR then some ([(k, v)], r5) else none
            | [] => none
          | none => none
        | _ => none
      | none => none
    | _ => none
end

/-- Parsing of a complete JSON document, modelling JSON.parse: one value
with only whitespace around it, or failure. -/
def jsonParse (s : String) : Option Json :=
  match parseValue (s.length + 1) s.toList with
  | some (j, rest) => if (skipWs rest).isEmpty then some j else none
  | none => none


/-- The world state: an association list from keys to the stored string
values.  The platform stores byte arrays; this chaincode only ever
writes and reads UTF-8 text, so values are modelled as strings. -/
abbrev WorldState := List (String × String)

/-- Modelling of ctx.stub.getState: the value stored under a key. -/
def getState : WorldState → String → Option String
  | [], _ => none
  | (k2, v) :: rest, k => if k2 = k then some v else getState rest k

/-- Modelling of ctx.stub.putState: overwrite of the value under a key,
with the key created when absent. -/
def putState : WorldState → String → String → WorldState
  | [], k, v => [(k, v)]
  | (k2, v2) :: rest, k, v =>
    if k2 = k then (k, v) :: rest else (k2, v2) :: putState rest k v

/-- Removal of every pair with the given key from an association list. -/
def removeKey {β : Type} (k : String) : List (String × β) → List (String × β)
  | [] => []
  | (k2, v) :: rest => if k2 = k then removeKey k rest else (k2, v) :: removeKey k rest

/-- Modelling of ctx.stub.deleteState: removal of a key. -/
def deleteState (st : WorldState) (k : String) : WorldState :=
  removeKey k st

/-- Modelling of ctx.stub.getStateByRange with two empty bounds: the
state database enumerates every stored key-value pair in ascending
lexicographic key order, the platform contract the spec states for the
open-ended range scan. -/
def rangeScan (st : WorldState) : List (String × String) :=
  sortOrd st

/-- Lookup of a field of an object field list, by name. -/
def lookupField : List (String × Json) → String → Option Json
  | [], _ => none
  | (k2, v) :: fs, k => if k2 = k then some v else lookupField fs k

/-- Reading of a property of a JSON value, as JavaScript property access
on a parsed document: a field of an object, undefined otherwise
(undefined is modelled as none). -/
def getField (j : Json) (k : String) : Option Json :=
  match j with
  | .obj fs => lookupField fs k
  | _ => none

/-- Replacement or addition of a field in an object field list: an
existing key keeps its position, a new key is appended at the end, as
JavaScript property assignment behaves. -/
def setFieldList : List (String × Json) → String → Json → List (String × Json)
  | [], k, v => [(k, v)]
  | (k2, v2) :: fs, k, v =>
    if k2 = k then (k, v) :: fs else (k2, v2) :: setFieldList fs k v

/-- Property assignment on a JSON value: meaningful on objects only. -/
def setField (j : Json) (k : String) (v : Json) : Json :=
  match j with
  | .obj fs => .obj (setFieldList fs k v)
  | _ => j

/-- AssetExists: true exactly when a non-empty value is stored under the
id, the truthiness test on the fetched state in assetTransfer.js. -/
def AssetExists (st : WorldState) (id : String) : Bool :=
  match getState st id with
  | some s => decide (0 < s.length)
  | none => false

/-- The object literal CreateAsset builds, in property insertion order;
every field value is the corresponding string argument. -/
def assetObj (id flavor size client cone value : String) : Json :=
  .obj [("ID", .str id), ("Flavor", .str flavor), ("Size", .str size),
        ("Client", .str client), ("Cone", .str cone), ("Value", .str value)]

/-- CreateAsset: failure when the id already exists, otherwise one
canonical write, returning the plain JSON.stringify of the new object
(in insertion order, not the sorted persisted form). -/
def CreateAsset (st : WorldState) (id flavor size client cone value : String) :
    Except String (WorldState × String) :=
  if AssetExists st id then .error ("The asset " ++ id ++ " already exists")
  else
    let asset := assetObj id flavor size client cone value
    .ok (putState st id (encode asset), serialize asset)

/-- ReadAsset: the stored string, or failure when the key is absent or
the stored value is empty. -/
def ReadAsset (st : WorldState) (id : String) : Except String String :=
  match getState st id with
  | some s =>
    if s.length = 0 then .error ("The asset " ++ id ++ " does not exist") else .ok s
  | none => .error ("The asset " ++ id ++ " does not exist")

/-- Presence-dependent member of an object literal: JSON.stringify drops
properties whose value is undefined, so a property copied from a missing
field of the parsed record contributes nothing to the written object. -/
def optField (k : String) : Option Json → List (String × Json)
  | some v => [(k, v)]
  | none => []

/-- UpdateAsset: existence check, full read and parse of the stored
record, then a whole-record overwrite keeping only the properties ID,
Flavor (the new value), Size, Client, Cone and Value of the old record. -/
def UpdateAsset (st : WorldState) (id flavor : String) : Except String WorldState :=
  if AssetExists st id then
    match ReadAsset st id with
    | .error e => .error e
    | .ok s =>
      match jsonParse s with
      | none => .error ("Unexpected token in JSON: " ++ s)
      | some asset =>
        let updatedAsset : Json := .obj
          ([("ID", Json.str id), ("Flavor", Json.str flavor)]
            ++ optField "Size" (getField asset "Size")
            ++ optField "Client" (getField asset "Client")
            ++ optField "Cone" (getField asset "Cone")
            ++ optField "Value" (getField asset "Value"))
        .ok (putState st id (encode updatedAsset))
  else .error ("The asset " ++ id ++ " does not exist")

/-- DeleteAsset: existence check then removal of the key. -/
def DeleteAsset (st : WorldState) (id : String) : Except String WorldState :=
  if AssetExists st id then .ok (deleteState st id)
  else .error ("The asset " ++ id ++ " does not exist")

/-- TransferAsset: read and parse of the record, capture of the previous
Client property, assignment of the new owner, one canonical write; the
captured previous owner is returned (none models undefined). -/
def TransferAsset (st : WorldState) (id newOwner : String) :
    Except String (WorldState × Option Json) :=
  match ReadAsset st id with
  | .error e => .error e
  | .ok s =>
    match jsonParse s with
    | none => .error ("Unexpected token in JSON: " ++ s)
    | some asset =>
      let oldOwner := getField asset "Client"
      let asset2 := setField asset "Client" (.str newOwner)
      .ok (putState st id (encode asset2), oldOwner)

/-- The nine seed records of InitLedger, in source order, each an object
literal in property insertion order. -/
def initAssets : List Json := [
  .obj [("ID", .str "icecream1"), ("Flavor", .str "chocolate"), ("Size", .str "medium"),
        ("Client", .str "Paola"), ("Cone", .str "sugar"), ("Value", .num 10000)],
  .obj [("ID", .str "icecream2"), ("Flavor", .str "vanilla"), ("Size", .str "small"),
        ("Client", .str "Martha"), ("Cone", .str "waffle"), ("Value", .num 6000)],
  .obj [("ID", .str "icecream3"), ("Flavor", .str "mint"), ("Size", .str "big"),
        ("Client", .str "Anna"), ("Cone", .str "cake"), ("Value", .num 15000)],
  .obj [("ID", .str "icecream4"), ("Flavor", .str "strawberry"), ("Size", .str "big"),
        ("Client", .str "Pablo"), ("Cone", .str "waffle"), ("Value", .num 15000)],
  .obj [("ID", .str "icecream5"), ("Flavor", .str "vanilla"), ("Size", .str "medium"),
        ("Client", .str "Manuel"), ("Cone", .str "cake"), ("Value", .num 10000)],
  .obj [("ID", .str "icecream6"), ("Flavor", .str "chocolate"), ("Size", .str "small"),
        ("Client", .str "Augusto"), ("Cone", .str "sugar"), ("Value", .num 6000)],
  .obj [("ID", .str "icecream7"), ("Flavor", .str "mint"), ("Size", .str "big"),
        ("Client", .str "Victoria"), ("Cone", .str "waffle"), ("Value", .num 15000)],
  .obj [("ID", .str "icecream8"), ("Flavor", .str "vanilla"), ("Size", .str "small"),
        ("Client", .str "Sandra"), ("Cone", .str "cake"), ("Value", .num 6000)],
  .obj [("ID", .str "icecream9"), ("Flavor", .str "brownie"), ("Size", .str "medium"),
        ("Client", .str "Hector"), ("Cone", .str "cake"), ("Value", .num 10000)]]

/-- The ID property of a seed record, the string the putState key
expression of the seeding loop evaluates to. -/
def assetId (a : Json) : String :=
  match getField a "ID" with
  | some (.str s) => s
  | _ => ""

/-- InitLedger: the docType property is appended to each seed record and
each record is written canonically under its ID. -/
def InitLedger (st : WorldState) : WorldState :=
  initAssets.foldl
    (fun s a =>
      let a2 := setField a "docType" (Json.str "asset")
      putState s (assetId a2) (encode a2))
    st

/-- One element of the scan result: a parsed record, or the raw stored
string when parsing fails (the lenient-degradation branch of the
try-catch in GetAllAssets). -/
inductive ScanEntry where
  | record (j : Json)
  | raw (s : String)

/-- The iterator loop of GetAllAssets: each visited value is parsed, a
parse failure contributes the raw string instead, and the loop
continues either way. -/
def scanLoop : List (String × String) → List ScanEntry
  | [] => []
  | (_, v) :: rest =>
    (match jsonParse v with
     | some r => ScanEntry.record r
     | none => ScanEntry.raw v) :: scanLoop rest

/-- GetAllAssets: the loop entries over the ordered open range scan. -/
def GetAllAssets (st : WorldState) : List ScanEntry :=
  scanLoop (rangeScan st)

/-- The JSON value one scan entry contributes to the returned
JSON.stringify of the collected results: a raw string becomes a JSON
string. -/
def entryJson : ScanEntry → Json
  | .record j => j
  | .raw s => .str s

/-- The string GetAllAssets returns. -/
def GetAllAssetsString (st : WorldState) : String :=
  serialize (.arr ((GetAllAssets st).map entryJson))

/-! ### Order properties of the key comparison -/

theorem char_toNat_inj {a b : Char} (h : a.toNat = b.toNat) : a = b :=
  Char.ext (UInt32.ext h)

theorem charListLe_total : ∀ as bs, charListLe as bs = true ∨ charListLe bs as = true
  | [], _ => .inl rfl
  | _ :: _, [] => .inr rfl
  | a :: as, b :: bs => by
    simp only [charListLe]
    rcases Nat.lt_trichotomy a.toNat b.toNat with h | h | h
    · left; simp [h]
    · have h1 : ¬ a.toNat < b.toNat := by omega
      have h2 : ¬ b.toNat < a.toNat := by omega
      rcases charListLe_total as bs with ih | ih
      · left; simp [h1, h2, ih]
      · right; simp [h1, h2, ih]
    · right; simp [h]

theorem charListLe_trans : ∀ as bs cs, charListLe as bs = true → charListLe bs cs = true →
    charListLe as cs = true
  | [], _, _, _, _ => rfl
  | _ :: _, [], _, h1, _ => by simp [charListLe] at h1
  | _ :: _, _ :: _, [], _, h2 => by simp [charListLe] at h2
  | a :: as, b :: bs, c :: cs, h1, h2 => by
    simp only [charListLe] at h1 h2 ⊢
    rcases Nat.lt_trichotomy a.toNat b.toNat with hab | hab | hab <;>
      rcases Nat.lt_trichotomy b.toNat c.toNat with hbc | hbc | hbc
    · simp [show a.toNat < c.toNat by omega]
    · simp [show a.toNat < c.toNat by omega]
    · simp [show ¬ b.toNat < c.toNat by omega, hbc] at h2
    · simp [show a.toNat < c.toNat by omega]
    · have g1 : ¬ a.toNat < c.toNat := by omega
      have g2 : ¬ c.toNat < a.toNat := by omega
      simp only [show ¬ a.toNat < b.toNat by omega, show ¬ b.toNat < a.toNat by omega,
        if_false, if_neg, ite_false] at h1
      simp only [show ¬ b.toNat < c.toNat by omega, show ¬ c.toNat < b.toNat by omega,
        if_false, if_neg, ite_false] at h2
      simp only [g1, g2, if_false, ite_false]
      simp only [if_neg (by omega : ¬ a.toNat < c.toNat)] at *
      exact charListLe_trans as bs cs (by simpa using h1) (by simpa using h2)
    · simp [show ¬ b.toNat < c.toNat by omega, hbc] at h2
    · simp [show ¬ a.toNat < b.toNat by omega, hab] at h1
    · simp [show ¬ a.toNat < b.toNat by omega, hab] at h1
    · simp [show ¬ a.toNat < b.toNat by omega, hab] at h1

theorem charListLe_antisymm : ∀ as bs, charListLe as bs = true → charListLe bs as = true →
    as = bs
  | [], [], _, _ => rfl
  | [], _ :: _, _, h2 => by simp [charListLe] at h2
  | _ :: _, [], h1, _ => by simp [charListLe] at h1
  | a :: as, b :: bs, h1, h2 => by
    simp only [charListLe] at h1 h2
    rcases Nat.lt_trichotomy a.toNat b.toNat with h | h | h
    · simp [show ¬ b.toNat < a.toNat by omega, h] at h2
    · have hab : a = b := char_toNat_inj h
      subst hab
      have hn : ¬ a.toNat < a.toNat := by omega
      simp only [hn, ite_false, if_neg] at h1 h2
      have := charListLe_antisymm as bs (by simpa using h1) (by simpa using h2)
      rw [this]
    · simp [show ¬ a.toNat < b.toNat by omega, h] at h1

theorem keyLe_total (a b : String) : keyLe a b = true ∨ keyLe b a = true :=
  charListLe_total _ _

theorem keyLe_trans {a b c : String} (h1 : keyLe a b = true) (h2 : keyLe b c = true) :
    keyLe a c = true :=
  charListLe_trans _ _ _ h1 h2

theorem keyLe_antisymm {a b : String} (h1 : keyLe a b = true) (h2 : keyLe b a = true) :
    a = b :=
  String.toList_inj.mp (charListLe_antisymm _ _ h1 h2)

theorem keyLe_of_not_keyLe {a b : String} (h : ¬ keyLe a b = true) : keyLe b a = true :=
  (keyLe_total a b).resolve_left h

/-! ### Permutation and sortedness of the key sort -/

/-- Sortedness of an association list: consecutive keys ascend. -/
def KeySorted {β : Type} (l : List (String × β)) : Prop :=
  l.Pairwise (fun x y => keyLe x.1 y.1 = true)

theorem insOrd_perm {β : Type} (x : String × β) (l : List (String × β)) :
    (insOrd x l).Perm (x :: l) := by
  induction l with
  | nil => exact .refl _
  | cons y t ih =>
    simp only [insOrd]
    split
    · exact .refl _
    · exact (ih.cons y).trans (List.Perm.swap x y t)

theorem sortOrd_perm {β : Type} (l : List (String × β)) : (sortOrd l).Perm l := by
  induction l with
  | nil => exact .refl _
  | cons x t ih => exact (insOrd_perm x (sortOrd t)).trans (ih.cons x)

theorem insOrd_sorted {β : Type} (x : String × β) {l : List (String × β)}
    (h : KeySorted l) : KeySorted (insOrd x l) := by
  induction l with
  | nil => simp [insOrd, KeySorted]
  | cons y t ih =>
    rw [KeySorted, List.pairwise_cons] at h
    simp only [insOrd]
    split
    · rename_i hxy
      refine List.Pairwise.cons ?_ (List.Pairwise.cons h.1 h.2)
      intro z hz
      rcases List.mem_cons.mp hz with rfl | hz
      · exact hxy
      · exact keyLe_trans hxy (h.1 z hz)
    · rename_i hxy
      have hyx : keyLe y.1 x.1 = true := keyLe_of_not_keyLe hxy
      refine List.Pairwise.cons ?_ (ih h.2)
      intro z hz
      have hz2 : z ∈ x :: t := (insOrd_perm x t).mem_iff.mp hz
      rcases List.mem_cons.mp hz2 with rfl | hz2
      · exact hyx
      · exact h.1 z hz2

theorem sortOrd_sorted {β : Type} (l : List (String × β)) : KeySorted (sortOrd l) := by
  induction l with
  | nil => exact List.Pairwise.nil
  | cons x t ih => exact insOrd_sorted x ih

theorem keySorted_perm_nodup_eq {β : Type} :
    ∀ (l1 l2 : List (String × β)), l1.Perm l2 → KeySorted l1 → KeySorted l2 →
      (l1.map Prod.fst).Nodup → l1 = l2
  | [], l2, hp, _, _, _ => (hp.nil_eq).symm ▸ rfl
  | x :: t1, l2, hp, hs1, hs2, hn => by
    match l2 with
    | [] => exact absurd hp.symm.nil_eq (by simp)
    | y :: t2 =>
      rw [KeySorted, List.pairwise_cons] at hs1 hs2
      have hxy : x = y := by
        by_contra hne
        have hx2 : x ∈ y :: t2 := hp.subset (List.mem_cons_self x t1)
        have hy1 : y ∈ x :: t1 := hp.symm.subset (List.mem_cons_self y t2)
        have hx2t : x ∈ t2 := by
          rcases List.mem_cons.mp hx2 with h | h
          · exact absurd h hne
          · exact h
        have hy1t : y ∈ t1 := by
          rcases List.mem_cons.mp hy1 with h | h
          · exact absurd h.symm hne
          · exact h
        have h1 : keyLe x.1 y.1 = true := hs1.1 y hy1t
        have h2 : keyLe y.1 x.1 = true := hs2.1 x hx2t
        have hk : x.1 = y.1 := keyLe_antisymm h1 h2
        rw [List.map_cons, List.nodup_cons] at hn
        exact hn.1 (hk ▸ List.mem_map_of_mem Prod.fst hy1t)
      subst hxy
      have ht : t1 = t2 := by
        refine keySorted_perm_nodup_eq t1 t2 (hp.cons_inv) hs1.2 hs2.2 ?_
        rw [List.map_cons, List.nodup_cons] at hn
        exact hn.2
      rw [ht]

/-! ### Association list lemmas for the world state and for object fields -/

theorem getState_putState_self : ∀ (st : WorldState) (k v : String),
    getState (putState st k v) k = some v
  | [], k, v => by simp [putState, getState]
  | (k2, v2) :: rest, k, v => by
    simp only [putState]
    split
    · simp [getState]
    · rename_i hne
      simp only [getState, if_neg hne]
      exact getState_putState_self rest k v

theorem getState_putState_ne : ∀ (st : WorldState) (k v k2 : String), k2 ≠ k →
    getState (putState st k v) k2 = getState st k2
  | [], k, v, k2, h => by
    simp only [putState, getState, if_neg (fun h2 : k = k2 => h h2.symm)]
  | (k3, v3) :: rest, k, v, k2, h => by
    simp only [putState]
    split
    · rename_i heq
      subst heq
      simp only [getState, if_neg (fun h3 : k3 = k2 => h h3.symm)]
    · simp only [getState]
      split
      · rfl
      · exact getState_putState_ne rest k v k2 h

theorem getState_mem : ∀ (st : WorldState) (k v : String),
    getState st k = some v → (k, v) ∈ st
  | [], k, v, h => by simp [getState] at h
  | (k2, v2) :: rest, k, v, h => by
    simp only [getState] at h
    split at h
    · rename_i heq
      cases h
      exact heq ▸ List.mem_cons_self _ _
    · exact List.mem_cons_of_mem _ (getState_mem rest k v h)

theorem getState_removeKey_self : ∀ (st : WorldState) (k : String),
    getState (removeKey k st) k = none
  | [], _ => rfl
  | (k2, v2) :: rest, k => by
    simp only [removeKey]
    split
    · exact getState_removeKey_self rest k
    · rename_i hne
      simp only [getState, if_neg hne]
      exact getState_removeKey_self rest k

theorem getState_removeKey_ne : ∀ (st : WorldState) (k k2 : String), k2 ≠ k →
    getState (removeKey k st) k2 = getState st k2
  | [], _, _, _ => rfl
  | (k3, v3) :: rest, k, k2, h => by
    simp only [removeKey]
    split
    · rename_i heq
      subst heq
      simp only [getState, if_neg (fun h2 : k3 = k2 => h (h2 ▸ rfl))]
      exact getState_removeKey_ne rest k3 k2 h
    · simp only [getState]
      split
      · rfl
      · exact getState_removeKey_ne rest k k2 h

theorem removeKey_append {β : Type} (k : String) :
    ∀ (l1 l2 : List (String × β)),
      removeKey k (l1 ++ l2) = removeKey k l1 ++ removeKey k l2
  | [], _ => rfl
  | (k2, v) :: t, l2 => by
    simp only [List.cons_append, removeKey]
    split
    · exact removeKey_append k t l2
    · simp [removeKey_append k t l2]

theorem removeKey_eq_self {β : Type} (k : String) :
    ∀ (l : List (String × β)), k ∉ l.map Prod.fst → removeKey k l = l
  | [], _ => rfl
  | (k2, v) :: t, h => by
    simp only [List.map_cons, List.mem_cons] at h
    push_neg at h
    simp only [removeKey, if_neg (fun he : k2 = k => h.1 he.symm)]
    rw [removeKey_eq_self k t h.2]

theorem lookupField_setFieldList_self : ∀ (fs : List (String × Json)) (k : String) (v : Json),
    lookupField (setFieldList fs k v) k = some v
  | [], k, v => by simp [setFieldList, lookupField]
  | (k2, v2) :: t, k, v => by
    simp only [setFieldList]
    split
    · simp [lookupField]
    · rename_i hne
      simp only [lookupField, if_neg hne]
      exact lookupField_setFieldList_self t k v

theorem lookupField_setFieldList_ne :
    ∀ (fs : List (String × Json)) (k : String) (v : Json) (k2 : String), k2 ≠ k →
      lookupField (setFieldList fs k v) k2 = lookupField fs k2
  | [], k, v, k2, h => by
    simp only [setFieldList, lookupField, if_neg (fun h2 : k = k2 => h h2.symm)]
  | (k3, v3) :: t, k, v, k2, h => by
    simp only [setFieldList]
    split
    · rename_i heq
      subst heq
      simp only [lookupField, if_neg (fun h3 : k3 = k2 => h h3.symm)]
    · simp only [lookupField]
      split
      · rfl
      · exact lookupField_setFieldList_ne t k v k2 h

/-! ### Encoding shape lemmas -/

theorem sortKeysRecursive_obj (fs : List (String × Json)) :
    sortKeysRecursive (Json.obj fs) = Json.obj (sortOrd (sortKeysFields fs)) := by
  simp [sortKeysRecursive]

theorem sortKeysFields_eq_map : ∀ fs : List (String × Json),
    sortKeysFields fs = fs.map (fun kv => (kv.1, sortKeysRecursive kv.2))
  | [] => rfl
  | (k, v) :: t => by simp [sortKeysFields, sortKeysFields_eq_map t]

theorem serialize_obj (fs : List (String × Json)) :
    serialize (Json.obj fs) = "\x7b" ++ serializeFields fs ++ "\x7d" := by
  simp [serialize]

theorem serialize_obj_length_pos (fs : List (String × Json)) :
    0 < (serialize (Json.obj fs)).length := by
  rw [serialize_obj]
  simp only [String.length_append]
  have h1 : ("\x7b" : String).length = 1 := rfl
  omega

theorem encode_obj (fs : List (String × Json)) :
    encode (Json.obj fs) =
      serialize (Json.obj (sortOrd (sortKeysFields (sortOrd (sortKeysFields fs))))) := by
  simp [encode, stringify, sortKeysRecursive_obj]

theorem encode_obj_length_pos (fs : List (String × Json)) :
    0 < (encode (Json.obj fs)).length := by
  rw [encode_obj]
  exact serialize_obj_length_pos _

theorem AssetExists_putState_obj (st : WorldState) (id : String) (fs : List (String × Json)) :
    AssetExists (putState st id (encode (Json.obj fs))) id = true := by
  unfold AssetExists
  rw [getState_putState_self]
  exact decide_eq_true (encode_obj_length_pos fs)

theorem AssetExists_eq_true_iff (st : WorldState) (id : String) :
    AssetExists st id = true ↔ ∃ s, getState st id = some s ∧ 0 < s.length := by
  unfold AssetExists
  cases h : getState st id with
  | none => simp
  | some s => simp [decide_eq_true_eq]

/-! ### Scan loop lemmas -/

theorem scanLoop_append : ∀ l1 l2 : List (String × String),
    scanLoop (l1 ++ l2) = scanLoop l1 ++ scanLoop l2
  | [], _ => rfl
  | (k, v) :: t, l2 => by simp [scanLoop, scanLoop_append t l2]

theorem scanLoop_length : ∀ l : List (String × String), (scanLoop l).length = l.length
  | [] => rfl
  | (k, v) :: t => by simp [scanLoop, scanLoop_length t]

/-! ### Commutation of deletion with the ordered scan -/

theorem insOrd_eq_cons {β : Type} (x : String × β) (l : List (String × β))
    (h : ∀ z ∈ l, keyLe x.1 z.1 = true) : insOrd x l = x :: l := by
  cases l with
  | nil => rfl
  | cons y t => simp [insOrd, h y (List.mem_cons_self y t)]

theorem removeKey_subset {β : Type} (k : String) :
    ∀ l : List (String × β), ∀ z ∈ removeKey k l, z ∈ l
  | [], _, hz => by simp [removeKey] at hz
  | (k2, v) :: t, z, hz => by
    simp only [removeKey] at hz
    split at hz
    · exact List.mem_cons_of_mem _ (removeKey_subset k t z hz)
    · rcases List.mem_cons.mp hz with rfl | hz2
      · exact List.mem_cons_self _ _
      · exact List.mem_cons_of_mem _ (removeKey_subset k t z hz2)

theorem removeKey_insOrd {β : Type} (k : String) (x : String × β) (l : List (String × β))
    (hs : KeySorted l) :
    removeKey k (insOrd x l) =
      if x.1 = k then removeKey k l else insOrd x (removeKey k l) := by
  induction l with
  | nil =>
    simp [insOrd, removeKey]
  | cons y t ih =>
    rw [KeySorted, List.pairwise_cons] at hs
    simp only [insOrd]
    by_cases hxy : keyLe x.1 y.1 = true
    · rw [if_pos hxy]
      simp only [removeKey]
      by_cases hxk : x.1 = k
      · rw [if_pos hxk, if_pos hxk]
      · rw [if_neg hxk, if_neg hxk]
        refine (insOrd_eq_cons x _ ?_).symm
        intro z hz
        rcases List.mem_cons.mp (removeKey_subset k (y :: t) z hz) with rfl | hz2
        · exact hxy
        · exact keyLe_trans hxy (hs.1 z hz2)
    · rw [if_neg hxy]
      simp only [removeKey]
      by_cases hyk : y.1 = k
      · rw [if_pos hyk, ih hs.2]
        by_cases hxk : x.1 = k
        · rw [if_pos hxk, if_pos hxk, if_pos hyk]
        · rw [if_neg hxk, if_neg hxk, if_pos hyk]
      · rw [if_neg hyk, ih hs.2]
        by_cases hxk : x.1 = k
        · rw [if_pos hxk, if_pos hxk]
          simp [removeKey, hyk]
        · rw [if_neg hxk, if_neg hxk]
          simp only [removeKey, if_neg hyk]
          rw [insOrd, if_neg hxy]

theorem sortOrd_removeKey {β : Type} (k : String) :
    ∀ l : List (String × β), sortOrd (removeKey k l) = removeKey k (sortOrd l)
  | [] => rfl
  | x :: t => by
    simp only [removeKey, sortOrd]
    rw [removeKey_insOrd k x (sortOrd t) (sortOrd_sorted t)]
    by_cases hxk : x.1 = k
    · rw [if_pos hxk, if_pos hxk, sortOrd_removeKey k t]
    · rw [if_neg hxk, if_neg hxk]
      simp only [sortOrd]
      rw [sortOrd_removeKey k t]

/-! ### Claim C1: canonical-encoding determinism -/

/-- C1.  Canonical-encoding determinism: the persisted encoding
(recursive key sort followed by deterministic whitespace-free
serialization) is a pure function of the field names and values.  Two
field lists that are permutations of one another (the same record built
in any field-insertion order, no duplicate field names) have
byte-identical canonical encodings. -/
theorem canonical_encoding_deterministic
    (l1 l2 : List (String × Json)) (hp : l1.Perm l2)
    (hn : (l1.map Prod.fst).Nodup) :
    encode (Json.obj l1) = encode (Json.obj l2) := by
  suffices h : sortKeysRecursive (Json.obj l1) = sortKeysRecursive (Json.obj l2) by
    simp [encode, stringify, h]
  rw [sortKeysRecursive_obj, sortKeysRecursive_obj]
  have hmp : (sortKeysFields l1).Perm (sortKeysFields l2) := by
    rw [sortKeysFields_eq_map, sortKeysFields_eq_map]
    exact hp.map _
  have hkeys : (sortKeysFields l1).map Prod.fst = l1.map Prod.fst := by
    rw [sortKeysFields_eq_map, List.map_map]
    rfl
  have hperm : (sortOrd (sortKeysFields l1)).Perm (sortOrd (sortKeysFields l2)) :=
    (sortOrd_perm _).trans (hmp.trans (sortOrd_perm _).symm)
  have hnodup : ((sortOrd (sortKeysFields l1)).map Prod.fst).Nodup := by
    have hp2 : ((sortOrd (sortKeysFields l1)).map Prod.fst).Perm (l1.map Prod.fst) := by
      rw [← hkeys]
      exact (sortOrd_perm _).map _
    exact hp2.nodup_iff.mpr hn
  rw [keySorted_perm_nodup_eq _ _ hperm (sortOrd_sorted _) (sortOrd_sorted _) hnodup]

/-- Witness for C1: a concrete two-field record encoded from both
insertion orders. -/
theorem canonical_encoding_deterministic_witness :
    encode (Json.obj [("ID", Json.str "a1"), ("Flavor", Json.str "mint")]) =
      encode (Json.obj [("Flavor", Json.str "mint"), ("ID", Json.str "a1")]) :=
  canonical_encoding_deterministic _ _
    (List.Perm.swap ("Flavor", Json.str "mint") ("ID", Json.str "a1") [])
    (by decide)

/-! ### Claim C3: create uniqueness, failed create writes nothing -/

/-- C3.  After a successful create of an id, a second create on the
same id fails with the already-exists error and the stored value for
the id remains the first write's canonical encoding (the failed create
returns only an error and performs no write). -/
theorem create_on_live_id_fails
    (st : WorldState) (id f1 f2 f3 f4 f5 g1 g2 g3 g4 g5 : String)
    (st1 : WorldState) (r : String)
    (h : CreateAsset st id f1 f2 f3 f4 f5 = .ok (st1, r)) :
    CreateAsset st1 id g1 g2 g3 g4 g5 = .error ("The asset " ++ id ++ " already exists") ∧
      getState st1 id = some (encode (assetObj id f1 f2 f3 f4 f5)) := by
  unfold CreateAsset at h
  split at h
  · cases h
  · injection h with hpair
    injection hpair with hst hr
    subst hst
    constructor
    · have hex : AssetExists (putState st id (encode (assetObj id f1 f2 f3 f4 f5))) id = true :=
        AssetExists_putState_obj st id _
      unfold CreateAsset
      rw [hex]
      simp
    · exact getState_putState_self st id _

/-- Witness for C3: a concrete create followed by a second create of the
same id. -/
theorem create_on_live_id_fails_witness :
    CreateAsset [("a1", "\x7b\"Client\":\"Carmen\",\"Cone\":\"sugar\",\"Flavor\":\"vanilla\",\"ID\":\"a1\",\"Size\":\"small\",\"Value\":\"6000\"\x7d")]
        "a1" "mint" "big" "Anna" "cake" "1" =
      .error ("The asset " ++ "a1" ++ " already exists") ∧
    getState [("a1", "\x7b\"Client\":\"Carmen\",\"Cone\":\"sugar\",\"Flavor\":\"vanilla\",\"ID\":\"a1\",\"Size\":\"small\",\"Value\":\"6000\"\x7d")]
        "a1" = some (encode (assetObj "a1" "vanilla" "small" "Carmen" "sugar" "6000")) :=
  create_on_live_id_fails [] "a1" "vanilla" "small" "Carmen" "sugar" "6000"
    "mint" "big" "Anna" "cake" "1" _ _ rfl

/-! ### Claim C2: create followed by read — corrected, no docType is written -/

/-- C2 counterexample.  The claim as stated requires a created record
read back to carry the docType tag; a concrete create followed by a
read yields a record with no docType field at all (only InitLedger adds
docType). -/
theorem create_read_no_docType_counterexample :
    CreateAsset [] "a1" "vanilla" "small" "Carmen" "sugar" "6000" =
      .ok ([("a1", "\x7b\"Client\":\"Carmen\",\"Cone\":\"sugar\",\"Flavor\":\"vanilla\",\"ID\":\"a1\",\"Size\":\"small\",\"Value\":\"6000\"\x7d")],
           "\x7b\"ID\":\"a1\",\"Flavor\":\"vanilla\",\"Size\":\"small\",\"Client\":\"Carmen\",\"Cone\":\"sugar\",\"Value\":\"6000\"\x7d") ∧
    ReadAsset [("a1", "\x7b\"Client\":\"Carmen\",\"Cone\":\"sugar\",\"Flavor\":\"vanilla\",\"ID\":\"a1\",\"Size\":\"small\",\"Value\":\"6000\"\x7d")] "a1" =
      .ok "\x7b\"Client\":\"Carmen\",\"Cone\":\"sugar\",\"Flavor\":\"vanilla\",\"ID\":\"a1\",\"Size\":\"small\",\"Value\":\"6000\"\x7d" ∧
    jsonParse "\x7b\"Client\":\"Carmen\",\"Cone\":\"sugar\",\"Flavor\":\"vanilla\",\"ID\":\"a1\",\"Size\":\"small\",\"Value\":\"6000\"\x7d" =
      some (Json.obj [("Client", Json.str "Carmen"), ("Cone", Json.str "sugar"),
        ("Flavor", Json.str "vanilla"), ("ID", Json.str "a1"),
        ("Size", Json.str "small"), ("Value", Json.str "6000")]) ∧
    lookupField [("Client", Json.str "Carmen"), ("Cone", Json.str "sugar"),
        ("Flavor", Json.str "vanilla"), ("ID", Json.str "a1"),
        ("Size", Json.str "small"), ("Value", Json.str "6000")] "docType" = none :=
  ⟨rfl, rfl, rfl, rfl⟩

/-- C2 (amended).  For every id not already present, CreateAsset writes
the canonical encoding of the object with fields ID and the caller's
field set only — no docType tag is added — and a subsequent ReadAsset
returns exactly that canonical encoding, a record whose fields equal the
field set plus ID, with no docType field. -/
theorem create_read_round_trip_no_docType
    (st : WorldState) (id flavor size client cone value : String)
    (h : AssetExists st id = false) :
    CreateAsset st id flavor size client cone value =
      .ok (putState st id (encode (assetObj id flavor size client cone value)),
           serialize (assetObj id flavor size client cone value)) ∧
    ReadAsset (putState st id (encode (assetObj id flavor size client cone value))) id =
      .ok (encode (assetObj id flavor size client cone value)) ∧
    encode (assetObj id flavor size client cone value) =
      serialize (Json.obj [("Client", Json.str client), ("Cone", Json.str cone),
        ("Flavor", Json.str flavor), ("ID", Json.str id), ("Size", Json.str size),
        ("Value", Json.str value)]) ∧
    lookupField [("Client", Json.str client), ("Cone", Json.str cone),
        ("Flavor", Json.str flavor), ("ID", Json.str id), ("Size", Json.str size),
        ("Value", Json.str value)] "ID" = some (Json.str id) ∧
    lookupField [("Client", Json.str client), ("Cone", Json.str cone),
        ("Flavor", Json.str flavor), ("ID", Json.str id), ("Size", Json.str size),
        ("Value", Json.str value)] "Flavor" = some (Json.str flavor) ∧
    lookupField [("Client", Json.str client), ("Cone", Json.str cone),
        ("Flavor", Json.str flavor), ("ID", Json.str id), ("Size", Json.str size),
        ("Value", Json.str value)] "Size" = some (Json.str size) ∧
    lookupField [("Client", Json.str client), ("Cone", Json.str cone),
        ("Flavor", Json.str flavor), ("ID", Json.str id), ("Size", Json.str size),
        ("Value", Json.str value)] "Client" = some (Json.str client) ∧
    lookupField [("Client", Json.str client), ("Cone", Json.str cone),
        ("Flavor", Json.str flavor), ("ID", Json.str id), ("Size", Json.str size),
        ("Value", Json.str value)] "Cone" = some (Json.str cone) ∧
    lookupField [("Client", Json.str client), ("Cone", Json.str cone),
        ("Flavor", Json.str flavor), ("ID", Json.str id), ("Size", Json.str size),
        ("Value", Json.str value)] "Value" = some (Json.str value) ∧
    lookupField [("Client", Json.str client), ("Cone", Json.str cone),
        ("Flavor", Json.str flavor), ("ID", Json.str id), ("Size", Json.str size),
        ("Value", Json.str value)] "docType" = none := by
  refine ⟨?_, ?_, rfl, rfl, rfl, rfl, rfl, rfl, rfl, rfl⟩
  · unfold CreateAsset
    rw [h]
    simp
  · unfold ReadAsset
    rw [getState_putState_self]
    have hpos : 0 < (encode (assetObj id flavor size client cone value)).length :=
      encode_obj_length_pos [("ID", Json.str id), ("Flavor", Json.str flavor),
        ("Size", Json.str size), ("Client", Json.str client), ("Cone", Json.str cone),
        ("Value", Json.str value)]
    exact if_neg (by omega)

/-- Witness for the amended C2 at a concrete create on the empty state. -/
theorem create_read_round_trip_no_docType_witness :
    CreateAsset [] "a2" "mint" "big" "Anna" "cake" "700" =
      .ok (putState [] "a2" (encode (assetObj "a2" "mint" "big" "Anna" "cake" "700")),
           serialize (assetObj "a2" "mint" "big" "Anna" "cake" "700")) ∧
    lookupField [("Client", Json.str "Anna"), ("Cone", Json.str "cake"),
        ("Flavor", Json.str "mint"), ("ID", Json.str "a2"), ("Size", Json.str "big"),
        ("Value", Json.str "700")] "docType" = none :=
  ⟨(create_read_round_trip_no_docType [] "a2" "mint" "big" "Anna" "cake" "700" rfl).1,
   (create_read_round_trip_no_docType [] "a2" "mint" "big" "Anna" "cake" "700" rfl).2.2.2.2.2.2.2.2.2⟩

/-! ### Claim C9: the create return value — corrected, it is not the canonical form -/

/-- C9 counterexample.  A concrete successful create returns the plain
JSON.stringify of the object in insertion order, which is not
byte-identical to the sorted canonical value persisted for the key. -/
theorem create_return_not_canonical_counterexample :
    CreateAsset [] "a9" "vanilla" "small" "Carmen" "sugar" "6000" =
      .ok ([("a9", "\x7b\"Client\":\"Carmen\",\"Cone\":\"sugar\",\"Flavor\":\"vanilla\",\"ID\":\"a9\",\"Size\":\"small\",\"Value\":\"6000\"\x7d")],
           "\x7b\"ID\":\"a9\",\"Flavor\":\"vanilla\",\"Size\":\"small\",\"Client\":\"Carmen\",\"Cone\":\"sugar\",\"Value\":\"6000\"\x7d") ∧
    ("\x7b\"ID\":\"a9\",\"Flavor\":\"vanilla\",\"Size\":\"small\",\"Client\":\"Carmen\",\"Cone\":\"sugar\",\"Value\":\"6000\"\x7d" : String) ≠
      "\x7b\"Client\":\"Carmen\",\"Cone\":\"sugar\",\"Flavor\":\"vanilla\",\"ID\":\"a9\",\"Size\":\"small\",\"Value\":\"6000\"\x7d" :=
  ⟨rfl, by decide⟩

/-- C9 (amended).  A successful create persists the canonical sorted
encoding but returns the serialization of the record in property
insertion order (ID, Flavor, Size, Client, Cone, Value); the two texts
denote the same field map (field-by-field lookups agree) but are not in
general byte-identical. -/
theorem create_returns_insertion_order_text
    (st : WorldState) (id flavor size client cone value : String)
    (h : AssetExists st id = false) :
    CreateAsset st id flavor size client cone value =
      .ok (putState st id (encode (assetObj id flavor size client cone value)),
           serialize (Json.obj [("ID", Json.str id), ("Flavor", Json.str flavor),
             ("Size", Json.str size), ("Client", Json.str client), ("Cone", Json.str cone),
             ("Value", Json.str value)])) ∧
    getState (putState st id (encode (assetObj id flavor size client cone value))) id =
      some (encode (assetObj id flavor size client cone value)) ∧
    encode (assetObj id flavor size client cone value) =
      serialize (Json.obj [("Client", Json.str client), ("Cone", Json.str cone),
        ("Flavor", Json.str flavor), ("ID", Json.str id), ("Size", Json.str size),
        ("Value", Json.str value)]) ∧
    (∀ k, lookupField [("Client", Json.str client), ("Cone", Json.str cone),
        ("Flavor", Json.str flavor), ("ID", Json.str id), ("Size", Json.str size),
        ("Value", Json.str value)] k =
      lookupField [("ID", Json.str id), ("Flavor", Json.str flavor),
        ("Size", Json.str size), ("Client", Json.str client), ("Cone", Json.str cone),
        ("Value", Json.str value)] k) := by
  refine ⟨?_, getState_putState_self st id _, rfl, ?_⟩
  · unfold CreateAsset
    rw [h]
    simp [assetObj]
  · intro k
    by_cases h1 : "ID" = k
    · subst h1; rfl
    by_cases h2 : "Flavor" = k
    · subst h2; rfl
    by_cases h3 : "Size" = k
    · subst h3; rfl
    by_cases h4 : "Client" = k
    · subst h4; rfl
    by_cases h5 : "Cone" = k
    · subst h5; rfl
    by_cases h6 : "Value" = k
    · subst h6; rfl
    simp [lookupField, h1, h2, h3, h4, h5, h6]

/-- Witness for the amended C9 at a concrete create on the empty state. -/
theorem create_returns_insertion_order_text_witness :
    CreateAsset [] "a3" "mint" "big" "Anna" "cake" "700" =
      .ok (putState [] "a3" (encode (assetObj "a3" "mint" "big" "Anna" "cake" "700")),
           serialize (Json.obj [("ID", Json.str "a3"), ("Flavor", Json.str "mint"),
             ("Size", Json.str "big"), ("Client", Json.str "Anna"), ("Cone", Json.str "cake"),
             ("Value", Json.str "700")])) :=
  (create_returns_insertion_order_text [] "a3" "mint" "big" "Anna" "cake" "700" rfl).1

/-! ### Claim C10: Value is a string on the create path, a number on the seed path -/

/-- C10.  Every record written by CreateAsset stores the Value field as
the caller's string argument verbatim, while the records seeded by
InitLedger store Value as a number; a created record and a seeded record
with the same logical field values therefore have different canonical
encodings, shown concretely for icecream2. -/
theorem created_value_string_seeded_value_number :
    (∀ (st : WorldState) (id f sz cl cn v : String) (st1 : WorldState) (r : String),
      CreateAsset st id f sz cl cn v = .ok (st1, r) →
        getState st1 id = some (encode (assetObj id f sz cl cn v)) ∧
        getField (assetObj id f sz cl cn v) "Value" = some (Json.str v)) ∧
    getState (InitLedger []) "icecream2" =
      some "\x7b\"Client\":\"Martha\",\"Cone\":\"waffle\",\"Flavor\":\"vanilla\",\"ID\":\"icecream2\",\"Size\":\"small\",\"Value\":6000,\"docType\":\"asset\"\x7d" ∧
    jsonParse "\x7b\"Client\":\"Martha\",\"Cone\":\"waffle\",\"Flavor\":\"vanilla\",\"ID\":\"icecream2\",\"Size\":\"small\",\"Value\":6000,\"docType\":\"asset\"\x7d" =
      some (Json.obj [("Client", Json.str "Martha"), ("Cone", Json.str "waffle"),
        ("Flavor", Json.str "vanilla"), ("ID", Json.str "icecream2"),
        ("Size", Json.str "small"), ("Value", Json.num 6000),
        ("docType", Json.str "asset")]) ∧
    lookupField [("Client", Json.str "Martha"), ("Cone", Json.str "waffle"),
        ("Flavor", Json.str "vanilla"), ("ID", Json.str "icecream2"),
        ("Size", Json.str "small"), ("Value", Json.num 6000),
        ("docType", Json.str "asset")] "Value" = some (Json.num 6000) ∧
    CreateAsset [] "icecream2" "vanilla" "small" "Martha" "waffle" "6000" =
      .ok ([("icecream2", "\x7b\"Client\":\"Martha\",\"Cone\":\"waffle\",\"Flavor\":\"vanilla\",\"ID\":\"icecream2\",\"Size\":\"small\",\"Value\":\"6000\"\x7d")],
           "\x7b\"ID\":\"icecream2\",\"Flavor\":\"vanilla\",\"Size\":\"small\",\"Client\":\"Martha\",\"Cone\":\"waffle\",\"Value\":\"6000\"\x7d") ∧
    jsonParse "\x7b\"Client\":\"Martha\",\"Cone\":\"waffle\",\"Flavor\":\"vanilla\",\"ID\":\"icecream2\",\"Size\":\"small\",\"Value\":\"6000\"\x7d" =
      some (Json.obj [("Client", Json.str "Martha"), ("Cone", Json.str "waffle"),
        ("Flavor", Json.str "vanilla"), ("ID", Json.str "icecream2"),
        ("Size", Json.str "small"), ("Value", Json.str "6000")]) ∧
    ("\x7b\"Client\":\"Martha\",\"Cone\":\"waffle\",\"Flavor\":\"vanilla\",\"ID\":\"icecream2\",\"Size\":\"small\",\"Value\":\"6000\"\x7d" : String) ≠
      "\x7b\"Client\":\"Martha\",\"Cone\":\"waffle\",\"Flavor\":\"vanilla\",\"ID\":\"icecream2\",\"Size\":\"small\",\"Value\":6000,\"docType\":\"asset\"\x7d" := by
  refine ⟨?_, rfl, rfl, rfl, rfl, rfl, by decide⟩
  intro st id f sz cl cn v st1 r h
  unfold CreateAsset at h
  split at h
  · cases h
  · injection h with hpair
    injection hpair with hst hr
    subst hst
    exact ⟨getState_putState_self st id _, rfl⟩

/-- Witness for C10 at a concrete create of icecream2 on the empty state. -/
theorem created_value_string_witness :
    getState [("icecream2", "\x7b\"Client\":\"Martha\",\"Cone\":\"waffle\",\"Flavor\":\"vanilla\",\"ID\":\"icecream2\",\"Size\":\"small\",\"Value\":\"6000\"\x7d")]
        "icecream2" =
      some (encode (assetObj "icecream2" "vanilla" "small" "Martha" "waffle" "6000")) ∧
    getField (assetObj "icecream2" "vanilla" "small" "Martha" "waffle" "6000") "Value" =
      some (Json.str "6000") :=
  created_value_string_seeded_value_number.1 [] "icecream2" "vanilla" "small" "Martha" "waffle"
    "6000" _ _ rfl

/-! ### Claim C7: existence and read consistency -/

/-- C7.  AssetExists is true exactly when a non-empty value is stored
under the id; ReadAsset fails exactly when AssetExists is false;
AssetExists is false on the empty state and immediately after a
successful DeleteAsset, and true immediately after a successful
CreateAsset or UpdateAsset of the id. -/
theorem exists_read_consistency (st : WorldState) (id : String) :
    ((∃ e, ReadAsset st id = .error e) ↔ AssetExists st id = false) ∧
    (AssetExists st id = true ↔ ∃ s, getState st id = some s ∧ 0 < s.length) ∧
    AssetExists ([] : WorldState) id = false ∧
    (∀ f1 f2 f3 f4 f5 st1 r, CreateAsset st id f1 f2 f3 f4 f5 = .ok (st1, r) →
      AssetExists st1 id = true) ∧
    (∀ fl st1, UpdateAsset st id fl = .ok st1 → AssetExists st1 id = true) ∧
    (∀ st1, DeleteAsset st id = .ok st1 → AssetExists st1 id = false) := by
  refine ⟨?_, AssetExists_eq_true_iff st id, rfl, ?_, ?_, ?_⟩
  · unfold ReadAsset AssetExists
    cases hg : getState st id with
    | none => simp
    | some s =>
      by_cases hz : s.length = 0
      · simp [hz]
      · simp [hz, Nat.pos_of_ne_zero hz]
  · intro f1 f2 f3 f4 f5 st1 r h
    unfold CreateAsset at h
    split at h
    · cases h
    · injection h with hpair
      injection hpair with hst hr
      subst hst
      exact AssetExists_putState_obj st id _
  · intro fl st1 h
    unfold UpdateAsset at h
    split at h
    · split at h
      · cases h
      · split at h
        · cases h
        · injection h with hst
          subst hst
          exact AssetExists_putState_obj st id _
    · cases h
  · intro st1 h
    unfold DeleteAsset at h
    split at h
    · injection h with hst
      subst hst
      unfold AssetExists deleteState
      rw [getState_removeKey_self]
    · cases h

/-- Witness for C7: existence right after a concrete create. -/
theorem exists_read_consistency_witness :
    AssetExists (putState [] "w7" (encode (assetObj "w7" "mint" "big" "Anna" "cake" "5")))
      "w7" = true :=
  (exists_read_consistency [] "w7").2.2.2.1 "mint" "big" "Anna" "cake" "5" _ _ rfl

/-! ### Claim C8: lenient degradation of the scan -/

/-- C8.  For every stored payload visited by the scan of GetAllAssets,
a payload that fails JSON parsing contributes the raw string at its
position and the scan continues past it (the output has one entry per
scanned pair); payloads that parse contribute the parsed record at
their positions, before and after the malformed one alike. -/
theorem scan_lenient_degradation (st : WorldState)
    (pre : List (String × String)) (kv : String × String) (post : List (String × String))
    (h : rangeScan st = pre ++ kv :: post) :
    GetAllAssets st =
      scanLoop pre ++ (match jsonParse kv.2 with
        | some j => ScanEntry.record j
        | none => ScanEntry.raw kv.2) :: scanLoop post ∧
    (jsonParse kv.2 = none →
      GetAllAssets st = scanLoop pre ++ ScanEntry.raw kv.2 :: scanLoop post) ∧
    (∀ j, jsonParse kv.2 = some j →
      GetAllAssets st = scanLoop pre ++ ScanEntry.record j :: scanLoop post) ∧
    (GetAllAssets st).length = (rangeScan st).length := by
  have h1 : GetAllAssets st = scanLoop pre ++ (match jsonParse kv.2 with
      | some j => ScanEntry.record j
      | none => ScanEntry.raw kv.2) :: scanLoop post := by
    unfold GetAllAssets
    rw [h, scanLoop_append]
    cases kv with
    | mk k v => simp [scanLoop]
  refine ⟨h1, ?_, ?_, ?_⟩
  · intro hn
    rw [h1, hn]
  · intro j hj
    rw [h1, hj]
  · unfold GetAllAssets
    exact scanLoop_length _

/-- Witness for C8: a scan over three stored values whose middle one is
not JSON; the raw string appears between the two parsed records. -/
theorem scan_lenient_degradation_witness :
    GetAllAssets [("a", "\x7b\"x\":1\x7d"), ("b", "not json"), ("c", "7")] =
      scanLoop [("a", "\x7b\"x\":1\x7d")] ++
        ScanEntry.raw "not json" :: scanLoop [("c", "7")] :=
  (scan_lenient_degradation [("a", "\x7b\"x\":1\x7d"), ("b", "not json"), ("c", "7")]
    [("a", "\x7b\"x\":1\x7d")] ("b", "not json") [("c", "7")] rfl).2.1 rfl

/-! ### Claim C4: transfer semantics -/

/-- C4.  For an existing record whose stored payload parses to an object
with an ownership field, TransferAsset returns the previous Client value,
changes exactly that one field (all other fields unchanged) and a
subsequent ReadAsset returns the canonical encoding of the record whose
owner is the new value. -/
theorem transfer_returns_previous_owner
    (st : WorldState) (id newOwner s : String) (fs : List (String × Json)) (owner : String)
    (hg : getState st id = some s) (hs : 0 < s.length)
    (hp : jsonParse s = some (Json.obj fs))
    (ho : lookupField fs "Client" = some (Json.str owner)) :
    TransferAsset st id newOwner =
      .ok (putState st id (encode (Json.obj (setFieldList fs "Client" (Json.str newOwner)))),
           some (Json.str owner)) ∧
    lookupField (setFieldList fs "Client" (Json.str newOwner)) "Client" =
      some (Json.str newOwner) ∧
    (∀ k, k ≠ "Client" →
      lookupField (setFieldList fs "Client" (Json.str newOwner)) k = lookupField fs k) ∧
    ReadAsset
        (putState st id (encode (Json.obj (setFieldList fs "Client" (Json.str newOwner))))) id =
      .ok (encode (Json.obj (setFieldList fs "Client" (Json.str newOwner)))) := by
  have hread : ReadAsset st id = .ok s := by
    unfold ReadAsset
    rw [hg]
    exact if_neg (by omega)
  refine ⟨?_, lookupField_setFieldList_self fs "Client" _,
          fun k hk => lookupField_setFieldList_ne fs "Client" _ k hk, ?_⟩
  · unfold TransferAsset
    rw [hread]
    simp only [hp]
    rw [show getField (Json.obj fs) "Client" = some (Json.str owner) from ho]
    rfl
  · unfold ReadAsset
    rw [getState_putState_self]
    have hpos : 0 < (encode (Json.obj (setFieldList fs "Client" (Json.str newOwner)))).length :=
      encode_obj_length_pos _
    exact if_neg (by omega)

/-- Witness for C4: the spec scenario — transferring seeded icecream1 to
Maria returns the seeded owner Paola. -/
theorem transfer_returns_previous_owner_witness :
    TransferAsset (InitLedger []) "icecream1" "Maria" =
      .ok (putState (InitLedger []) "icecream1"
            (encode (Json.obj (setFieldList
              [("Client", Json.str "Paola"), ("Cone", Json.str "sugar"),
               ("Flavor", Json.str "chocolate"), ("ID", Json.str "icecream1"),
               ("Size", Json.str "medium"), ("Value", Json.num 10000),
               ("docType", Json.str "asset")] "Client" (Json.str "Maria")))),
           some (Json.str "Paola")) :=
  (transfer_returns_previous_owner (InitLedger []) "icecream1" "Maria"
    "\x7b\"Client\":\"Paola\",\"Cone\":\"sugar\",\"Flavor\":\"chocolate\",\"ID\":\"icecream1\",\"Size\":\"medium\",\"Value\":10000,\"docType\":\"asset\"\x7d"
    [("Client", Json.str "Paola"), ("Cone", Json.str "sugar"),
     ("Flavor", Json.str "chocolate"), ("ID", Json.str "icecream1"),
     ("Size", Json.str "medium"), ("Value", Json.num 10000),
     ("docType", Json.str "asset")] "Paola" rfl (by decide) rfl rfl).1

/-! ### Claim C5: update frame — corrected, docType is dropped -/

/-- C5 counterexample.  Updating the seeded record icecream1 to flavor
vanilla drops the docType field the seeded record carried: the re-read
record has exactly the six fixed fields and no docType, so not all other
fields are unchanged. -/
theorem update_drops_docType_counterexample :
    (UpdateAsset (InitLedger []) "icecream1" "vanilla").map
        (fun st1 => getState st1 "icecream1") =
      .ok (some "\x7b\"Client\":\"Paola\",\"Cone\":\"sugar\",\"Flavor\":\"vanilla\",\"ID\":\"icecream1\",\"Size\":\"medium\",\"Value\":10000\x7d") ∧
    jsonParse "\x7b\"Client\":\"Paola\",\"Cone\":\"sugar\",\"Flavor\":\"vanilla\",\"ID\":\"icecream1\",\"Size\":\"medium\",\"Value\":10000\x7d" =
      some (Json.obj [("Client", Json.str "Paola"), ("Cone", Json.str "sugar"),
        ("Flavor", Json.str "vanilla"), ("ID", Json.str "icecream1"),
        ("Size", Json.str "medium"), ("Value", Json.num 10000)]) ∧
    lookupField [("Client", Json.str "Paola"), ("Cone", Json.str "sugar"),
        ("Flavor", Json.str "vanilla"), ("ID", Json.str "icecream1"),
        ("Size", Json.str "medium"), ("Value", Json.num 10000)] "docType" = none ∧
    getState (InitLedger []) "icecream1" =
      some "\x7b\"Client\":\"Paola\",\"Cone\":\"sugar\",\"Flavor\":\"chocolate\",\"ID\":\"icecream1\",\"Size\":\"medium\",\"Value\":10000,\"docType\":\"asset\"\x7d" ∧
    jsonParse "\x7b\"Client\":\"Paola\",\"Cone\":\"sugar\",\"Flavor\":\"chocolate\",\"ID\":\"icecream1\",\"Size\":\"medium\",\"Value\":10000,\"docType\":\"asset\"\x7d" =
      some (Json.obj [("Client", Json.str "Paola"), ("Cone", Json.str "sugar"),
        ("Flavor", Json.str "chocolate"), ("ID", Json.str "icecream1"),
        ("Size", Json.str "medium"), ("Value", Json.num 10000),
        ("docType", Json.str "asset")]) ∧
    lookupField [("Client", Json.str "Paola"), ("Cone", Json.str "sugar"),
        ("Flavor", Json.str "chocolate"), ("ID", Json.str "icecream1"),
        ("Size", Json.str "medium"), ("Value", Json.num 10000),
        ("docType", Json.str "asset")] "docType" = some (Json.str "asset") :=
  ⟨rfl, rfl, rfl, rfl, rfl, rfl⟩

/-- C5 (amended).  For an existing record whose stored payload parses to
an object carrying Size, Client, Cone and Value, UpdateAsset changes the
Flavor field to the new value and preserves Size, Client, Cone and Value;
every other stored field — in particular the docType of seeded records —
is dropped rather than preserved. -/
theorem update_overwrites_fixed_fields
    (st : WorldState) (id flavor s : String) (fs : List (String × Json))
    (sz cl cn vl : Json)
    (hg : getState st id = some s) (hs : 0 < s.length)
    (hp : jsonParse s = some (Json.obj fs))
    (hsz : lookupField fs "Size" = some sz)
    (hcl : lookupField fs "Client" = some cl)
    (hcn : lookupField fs "Cone" = some cn)
    (hvl : lookupField fs "Value" = some vl) :
    UpdateAsset st id flavor =
      .ok (putState st id (encode (Json.obj [("ID", Json.str id), ("Flavor", Json.str flavor),
        ("Size", sz), ("Client", cl), ("Cone", cn), ("Value", vl)]))) ∧
    lookupField [("ID", Json.str id), ("Flavor", Json.str flavor), ("Size", sz),
      ("Client", cl), ("Cone", cn), ("Value", vl)] "Flavor" = some (Json.str flavor) ∧
    lookupField [("ID", Json.str id), ("Flavor", Json.str flavor), ("Size", sz),
      ("Client", cl), ("Cone", cn), ("Value", vl)] "Size" = some sz ∧
    lookupField [("ID", Json.str id), ("Flavor", Json.str flavor), ("Size", sz),
      ("Client", cl), ("Cone", cn), ("Value", vl)] "Client" = some cl ∧
    lookupField [("ID", Json.str id), ("Flavor", Json.str flavor), ("Size", sz),
      ("Client", cl), ("Cone", cn), ("Value", vl)] "Cone" = some cn ∧
    lookupField [("ID", Json.str id), ("Flavor", Json.str flavor), ("Size", sz),
      ("Client", cl), ("Cone", cn), ("Value", vl)] "Value" = some vl ∧
    lookupField [("ID", Json.str id), ("Flavor", Json.str flavor), ("Size", sz),
      ("Client", cl), ("Cone", cn), ("Value", vl)] "docType" = none := by
  have hex : AssetExists st id = true := (AssetExists_eq_true_iff st id).mpr ⟨s, hg, hs⟩
  have hread : ReadAsset st id = .ok s := by
    unfold ReadAsset
    rw [hg]
    exact if_neg (by omega)
  refine ⟨?_, rfl, rfl, rfl, rfl, rfl, rfl⟩
  unfold UpdateAsset
  rw [hex, if_pos rfl, hread]
  simp only [hp]
  rw [show getField (Json.obj fs) "Size" = some sz from hsz,
      show getField (Json.obj fs) "Client" = some cl from hcl,
      show getField (Json.obj fs) "Cone" = some cn from hcn,
      show getField (Json.obj fs) "Value" = some vl from hvl]
  rfl

/-- Witness for the amended C5: the spec scenario update of seeded
icecream1 to flavor vanilla. -/
theorem update_overwrites_fixed_fields_witness :
    UpdateAsset (InitLedger []) "icecream1" "vanilla" =
      .ok (putState (InitLedger []) "icecream1"
        (encode (Json.obj [("ID", Json.str "icecream1"), ("Flavor", Json.str "vanilla"),
          ("Size", Json.str "medium"), ("Client", Json.str "Paola"),
          ("Cone", Json.str "sugar"), ("Value", Json.num 10000)]))) :=
  (update_overwrites_fixed_fields (InitLedger []) "icecream1" "vanilla"
    "\x7b\"Client\":\"Paola\",\"Cone\":\"sugar\",\"Flavor\":\"chocolate\",\"ID\":\"icecream1\",\"Size\":\"medium\",\"Value\":10000,\"docType\":\"asset\"\x7d"
    [("Client", Json.str "Paola"), ("Cone", Json.str "sugar"),
     ("Flavor", Json.str "chocolate"), ("ID", Json.str "icecream1"),
     ("Size", Json.str "medium"), ("Value", Json.num 10000),
     ("docType", Json.str "asset")]
    (Json.str "medium") (Json.str "Paola") (Json.str "sugar") (Json.num 10000)
    rfl (by decide) rfl rfl rfl rfl rfl).1

/-! ### Claim C6: scan ordering and the effect of deletion -/

/-- C6.  The scan of GetAllAssets visits the stored records in ascending
lexicographic key order (with pairwise distinct keys when the state has
no duplicate keys), and after deleting a stored key the re-scan yields
the same sequence with exactly the record for that key omitted and no
others. -/
theorem scan_ordered_delete_omits_one
    (st : WorldState) (k : String) (st1 : WorldState)
    (hn : (st.map Prod.fst).Nodup)
    (hdel : DeleteAsset st k = .ok st1) :
    KeySorted (rangeScan st) ∧
    ((rangeScan st).map Prod.fst).Nodup ∧
    ∃ pre v post,
      rangeScan st = pre ++ (k, v) :: post ∧
      rangeScan st1 = pre ++ post ∧
      GetAllAssets st = scanLoop pre ++ (match jsonParse v with
        | some j => ScanEntry.record j
        | none => ScanEntry.raw v) :: scanLoop post ∧
      GetAllAssets st1 = scanLoop pre ++ scanLoop post := by
  unfold DeleteAsset at hdel
  split at hdel
  · rename_i hex
    injection hdel with hst
    subst hst
    obtain ⟨s0, hg, hs0⟩ := (AssetExists_eq_true_iff st k).mp hex
    have hmem : (k, s0) ∈ st := getState_mem st k s0 hg
    have hmem2 : (k, s0) ∈ rangeScan st := ((sortOrd_perm st).mem_iff).mpr hmem
    obtain ⟨pre, post, hsplit⟩ := List.append_of_mem hmem2
    have hsorted : KeySorted (rangeScan st) := sortOrd_sorted st
    have hnodup : ((rangeScan st).map Prod.fst).Nodup := by
      have hperm : ((rangeScan st).map Prod.fst).Perm (st.map Prod.fst) :=
        (sortOrd_perm st).map _
      exact hperm.nodup_iff.mpr hn
    have hnotmem : k ∉ pre.map Prod.fst ∧ k ∉ post.map Prod.fst := by
      have h0 := hnodup
      rw [hsplit, List.map_append, List.map_cons] at h0
      have h1 := List.nodup_append.mp h0
      refine ⟨fun hk => h1.2.2 hk (List.mem_cons_self k _), (List.nodup_cons.mp h1.2.1).1⟩
    have hscan1 : rangeScan (deleteState st k) = pre ++ post := by
      show sortOrd (removeKey k st) = pre ++ post
      rw [sortOrd_removeKey, show sortOrd st = pre ++ (k, s0) :: post from hsplit,
        removeKey_append, removeKey_eq_self k pre hnotmem.1]
      have h2 : removeKey k ((k, s0) :: post) = post := by
        simp only [removeKey, if_pos rfl]
        exact removeKey_eq_self k post hnotmem.2
      rw [h2]
    refine ⟨hsorted, hnodup, pre, s0, post, hsplit, hscan1, ?_, ?_⟩
    · unfold GetAllAssets
      rw [hsplit, scanLoop_append]
      simp [scanLoop]
    · unfold GetAllAssets
      rw [hscan1, scanLoop_append]
  · cases hdel

/-- Witness for C6: deleting the middle key of a three-record state. -/
theorem scan_ordered_delete_omits_one_witness :
    KeySorted (rangeScan [("a", "1"), ("b", "2"), ("c", "3")]) ∧
    ((rangeScan [("a", "1"), ("b", "2"), ("c", "3")]).map Prod.fst).Nodup ∧
    ∃ pre v post,
      rangeScan [("a", "1"), ("b", "2"), ("c", "3")] = pre ++ ("b", v) :: post ∧
      rangeScan [("a", "1"), ("c", "3")] = pre ++ post ∧
      GetAllAssets [("a", "1"), ("b", "2"), ("c", "3")] =
        scanLoop pre ++ (match jsonParse v with
          | some j => ScanEntry.record j
          | none => ScanEntry.raw v) :: scanLoop post ∧
      GetAllAssets [("a", "1"), ("c", "3")] = scanLoop pre ++ scanLoop post :=
  scan_ordered_delete_omits_one [("a", "1"), ("b", "2"), ("c", "3")] "b"
    [("a", "1"), ("c", "3")] (by decide) rfl
